import Mathlib

/-!
Verification of the deepweb-search backend core against its design
specification.

The development shallowly embeds the Python sources:
  backend/cache_service.py   (CacheService)
  backend/ranking_service.py (RankingService)
  backend/main.py            (the search endpoint)

Modelling conventions:
* Python dicts keyed by strings become association lists; iteration order
  of the cache map is irrelevant to every stated property.
* Python datetimes become integer timestamps; datetime subtraction is
  integer subtraction.
* Python floats in the ranking score become exact rationals; every weight
  in the source (10.0, 3.0, 5.0, 1.5, 1.0, 3.0, 0.5, 2.0, -1.0, 0.1) is
  exactly representable.
* Tokenization by the regex \b\w+\b is modelled over the ASCII fragment:
  a word character is an alphanumeric character or an underscore.
* Asynchronous fan-out is modelled by a per-source outcome oracle
  (a function from source name to result list or error message), which is
  exactly the information the join loop in main.py consumes.
-/

/-! ## String utilities shared by the embedded services -/

/-- A word character in the sense of the regex class \w (ASCII fragment). -/
def isWordChar (c : Char) : Bool := c.isAlphanum || c == '_'

/-- Model of Python str.lower, character by character (ASCII fragment). -/
def strLower (s : String) : String := String.mk (s.data.map Char.toLower)

/-- Lexicographic comparison of char lists by code point: the order Python
string comparison uses. -/
def chLe : List Char → List Char → Bool
  | [], _ => true
  | _ :: _, [] => false
  | c :: cs, d :: ds =>
    if c < d then true
    else if d < c then false
    else chLe cs ds

/-- Python string less-or-equal: code-point lexicographic. -/
def pyStrLe (a b : String) : Bool := chLe a.data b.data

/-- Model of Python sorted on a list of strings. -/
def pySorted (l : List String) : List String :=
  List.insertionSort (fun a b => pyStrLe a b = true) l

/-- Maximal runs of characters satisfying a predicate, accumulating the
current (reversed) run. Models re.findall of a run regex and str.split. -/
def tokensAux (p : Char → Bool) : List Char → List Char → List (List Char)
  | [], cur => if cur.isEmpty then [] else [cur.reverse]
  | c :: rest, cur =>
    if p c then tokensAux p rest (c :: cur)
    else if cur.isEmpty then tokensAux p rest []
    else cur.reverse :: tokensAux p rest []

/-- Model of re.findall of the word regex over a string: maximal runs of
word characters. -/
def findWords (s : String) : List String :=
  (tokensAux isWordChar s.data []).map fun l => String.mk l

/-- Model of Python str.split with no argument: maximal runs of
non-whitespace characters. -/
def splitWs (s : String) : List String :=
  (tokensAux (fun c => !c.isWhitespace) s.data []).map fun l => String.mk l

/-- Model of the Python substring test (the in operator) on char lists. -/
def containsSub (pat : List Char) : List Char → Bool
  | [] => pat.isEmpty
  | c :: rest => pat.isPrefixOf (c :: rest) || containsSub pat rest

/-- Model of Python str.replace: replace every non-overlapping occurrence
of a non-empty pattern, scanning left to right. The sources only ever call
it with a non-empty pattern, so the empty-pattern guard is never hit. The
fuel argument makes the recursion structural; one character of fuel is
spent per scanned character, so fuel equal to the length of the scanned
list (as supplied by replaceAll) never runs out. -/
def replaceAllFuel (pat repl : List Char) : Nat → List Char → List Char
  | _, [] => []
  | 0, s => s
  | fuel + 1, c :: rest =>
    if pat.isPrefixOf (c :: rest) && !pat.isEmpty then
      repl ++ replaceAllFuel pat repl fuel (rest.drop (pat.length - 1))
    else
      c :: replaceAllFuel pat repl fuel rest

/-- Model of Python str.replace on char lists; see replaceAllFuel. -/
def replaceAll (pat repl s : List Char) : List Char :=
  replaceAllFuel pat repl s.length s

/-- Model of Python str.rstrip applied with a slash argument: remove every
trailing slash. -/
def rstripSlashes (s : List Char) : List Char :=
  (s.reverse.dropWhile (fun c => c == '/')).reverse

/-! ## Result records

The pipeline passes results around as Python dicts and reads the fields
title, url, snippet, source with dict.get defaulting to the empty string,
so each field is modelled as optional. -/

structure ResultItem where
  title : Option String
  url : Option String
  snippet : Option String
  source : Option String
deriving DecidableEq, Repr

/-! ## RankingService.normalize_url and deduplicate_results -/

/-- Embeds RankingService._normalize_url: lowercase, strip all trailing
slashes, then replace every occurrence of the two scheme strings and of
the www-dot string anywhere in the URL by the empty string (Python
str.replace replaces all occurrences, not only a leading one). -/
def normalize_url (url : String) : String :=
  let u := (strLower url).data
  let u := rstripSlashes u
  let u := replaceAll "http://".data [] u
  let u := replaceAll "https://".data [] u
  let u := replaceAll "www.".data [] u
  String.mk u

/-- Modelled from the spec (for comparison with normalize_url): the
normalization as worded by the specification, namely lowercase, strip the
scheme when it leads the URL, strip a leading www-dot, and strip one
trailing slash. -/
def specNormalizeUrl (url : String) : String :=
  let u := (strLower url).data
  let u :=
    if "http://".data.isPrefixOf u then u.drop 7
    else if "https://".data.isPrefixOf u then u.drop 8
    else u
  let u := if "www.".data.isPrefixOf u then u.drop 4 else u
  let u := if u.getLast? == some '/' then u.dropLast else u
  String.mk u

/-- The deduplication key of a result: its url field, defaulting to the
empty string, normalized. -/
def normKey (r : ResultItem) : String := normalize_url (r.url.getD "")

/-- Embeds the loop body of RankingService.deduplicate_results with its
seen_urls set threaded explicitly; normKey is exactly the normalized url
the loop computes for each result. -/
def dedupAux : List ResultItem → List String → List ResultItem
  | [], _ => []
  | r :: rest, seen =>
    if normKey r ∈ seen then dedupAux rest seen
    else r :: dedupAux rest (normKey r :: seen)

/-- Embeds RankingService.deduplicate_results. -/
def deduplicate_results (results : List ResultItem) : List ResultItem :=
  dedupAux results []

/-- Specification function: keep the first occurrence of every
normalization class, in input order. Used to characterize
deduplicate_results. -/
def firstOccurrence : List ResultItem → List ResultItem
  | [] => []
  | r :: rest =>
    r :: firstOccurrence (rest.filter fun x => normKey x != normKey r)
termination_by l => l.length
decreasing_by
  simp only [List.length_cons]
  exact Nat.lt_succ_of_le (List.length_filter_le _ _)

/-! ## RankingService scoring -/

/-- The fixed high-authority domain substrings of
RankingService._domain_authority_score. -/
def high_authority : List String :=
  ["wikipedia.org", "github.com", "stackoverflow.com",
   "medium.com", "reddit.com", "nytimes.com", "bbc.com",
   "nature.com", "sciencedirect.com", "arxiv.org",
   "gov", "edu", "ac.uk"]

/-- Embeds RankingService._domain_authority_score: 3 when any authority
substring occurs in the URL, else 0.5 for an https scheme, else 0. The
Python loop returns on the first match, which is equivalent to the
existence test because every match returns the same value. -/
def domain_authority_score (url : String) : ℚ :=
  if high_authority.any (fun d => containsSub d.data url.data) then 3
  else if "https://".data.isPrefixOf url.data then 1/2
  else 0

/-- Title-length shaping term of RankingService._calculate_score, factored
from the inline conditional in the source. -/
def title_length_score (title : String) : ℚ :=
  let title_length := (splitWs title).length
  if 3 ≤ title_length ∧ title_length ≤ 15 then 2
  else if title_length < 3 ∨ 20 < title_length then -1
  else 0

/-- Snippet-length shaping term of RankingService._calculate_score,
factored from the inline conditional in the source. -/
def snippet_length_score (snippet : String) : ℚ :=
  let snippet_length := (splitWs snippet).length
  if 15 < snippet_length then 1
  else if snippet_length < 5 then -1
  else 0

/-- Embeds RankingService._calculate_score. The argument query_keywords is
the set of word tokens of the lowercased query and query_lower the
lowercased query itself, as computed by rank_results. -/
def calculate_score (result : ResultItem) (query_keywords : Finset String)
    (query_lower : String) : ℚ :=
  let title := strLower (result.title.getD "")
  let snippet := strLower (result.snippet.getD "")
  let url := strLower (result.url.getD "")
  let s1 : ℚ := if containsSub query_lower.data title.data then 10 else 0
  let title_words := (findWords title).toFinset
  let s2 : ℚ := ((query_keywords ∩ title_words).card : ℚ) * 3
  let s3 : ℚ := if containsSub query_lower.data snippet.data then 5 else 0
  let snippet_words := (findWords snippet).toFinset
  let s4 : ℚ := ((query_keywords ∩ snippet_words).card : ℚ) * (3/2)
  let url_words := (findWords url).toFinset
  let s5 : ℚ := ((query_keywords ∩ url_words).card : ℚ) * 1
  let s6 : ℚ := domain_authority_score url
  let s7 : ℚ := title_length_score title
  let s8 : ℚ := snippet_length_score snippet
  max (s1 + s2 + s3 + s4 + s5 + s6 + s7 + s8) (1/10)

/-- Embeds RankingService.rank_results: score every result, then sort by
score descending with Python sorted, which is stable; insertion sort with
the reflexive greater-or-equal relation realizes exactly that order. -/
def rank_results (results : List ResultItem) (query : String) :
    List (ResultItem × ℚ) :=
  let query_lower := strLower query
  let query_keywords := (findWords query_lower).toFinset
  let scored := results.map fun r =>
    (r, calculate_score r query_keywords query_lower)
  List.insertionSort (fun a b => b.2 ≤ a.2) scored

/-! ## CacheService -/

/-- Lookup in an association list modelling a Python dict: the value at
the first matching key. -/
def dictGet {β : Type} : List (String × β) → String → Option β
  | [], _ => none
  | (k', v) :: rest, k => if k' = k then some v else dictGet rest k

/-- Key assignment in an association list modelling a Python dict. The
position of the written key is irrelevant to every stated property, so the
entry is re-appended. -/
def dictSet {β : Type} (m : List (String × β)) (k : String) (v : β) :
    List (String × β) :=
  m.filter (fun p => p.1 != k) ++ [(k, v)]

/-- Key deletion in an association list modelling a Python dict. -/
def dictDel {β : Type} (m : List (String × β)) (k : String) :
    List (String × β) :=
  m.filter (fun p => p.1 != k)

/-- State of backend/cache_service.py CacheService: the map from key to
(value, insertion timestamp), the configured TTL, and the two counters. -/
structure CacheService (α : Type) where
  cache : List (String × α × Int)
  ttl_seconds : Int
  hits : Nat
  misses : Nat

/-- The constructed state of CacheService.__init__. -/
def CacheService.init {α : Type} (ttl_seconds : Int) : CacheService α :=
  { cache := [], ttl_seconds := ttl_seconds, hits := 0, misses := 0 }

/-- Embeds CacheService._generate_key. The source feeds this payload
string through an MD5 hex digest; the digest is a deterministic function
of the payload, and every property stated below concerns equality of keys,
which the digest preserves, so the model keys the map by the payload
itself. -/
def generate_key (query : String) (sources languages : List String)
    (max_results : Nat) : String :=
  query ++ ":" ++ String.intercalate "," (pySorted sources) ++ ":" ++
    String.intercalate "," (pySorted languages) ++ ":" ++
    toString max_results

/-- Embeds CacheService.get at integer time now: a fresh entry is a hit, a
stale entry is deleted and counted as a miss, an absent entry is a miss. -/
def CacheService.get {α : Type} (s : CacheService α) (query : String)
    (sources languages : List String) (max_results : Nat) (now : Int) :
    Option α × CacheService α :=
  let key := generate_key query sources languages max_results
  match dictGet s.cache key with
  | some (value, timestamp) =>
    if now - timestamp < s.ttl_seconds then
      (some value, { s with hits := s.hits + 1 })
    else
      (none, { s with cache := dictDel s.cache key, misses := s.misses + 1 })
  | none => (none, { s with misses := s.misses + 1 })

/-- Embeds CacheService.cleanup_old_entries: drop every entry whose age at
time now has reached the TTL. -/
def CacheService.cleanup_old_entries {α : Type} (s : CacheService α)
    (now : Int) : CacheService α :=
  { s with cache := s.cache.filter fun p => decide (now - p.2.2 < s.ttl_seconds) }

/-- Embeds CacheService.set: write the entry, then sweep expired entries
when the map has grown past 1000 keys. -/
def CacheService.set {α : Type} (s : CacheService α) (query : String)
    (sources languages : List String) (max_results : Nat) (value : α)
    (now : Int) : CacheService α :=
  let key := generate_key query sources languages max_results
  let s1 : CacheService α := { s with cache := dictSet s.cache key (value, now) }
  if 1000 < s1.cache.length then s1.cleanup_old_entries now else s1

/-- Embeds CacheService.clear. -/
def CacheService.clear {α : Type} (s : CacheService α) : CacheService α :=
  { s with cache := [], hits := 0, misses := 0 }

/-! ## The search endpoint of backend/main.py

The transport layer, the query analyzer and the persistence collaborator
are outside the modelled core: the endpoint is embedded from the cache
lookup through response assembly and cache store. Raising HTTPException
with status 400 is modelled as the error branch of Except. -/

/-- The validated request body (backend/models.py SearchRequest). Pydantic
enforces 1 ≤ max_results ≤ 100, 1 ≤ page and 1 ≤ page_size ≤ 50. -/
structure SearchRequest where
  query : String
  mode : String
  languages : List String
  sources : List String
  max_results : Nat
  page : Nat
  page_size : Nat
deriving DecidableEq, Repr

/-- The response dict assembled by the search endpoint. The cache_hit key
is absent from the assembled dict and only written on the hit path, hence
an optional field; search_id stays none because the persistence
collaborator is outside the modelled core. -/
structure SearchResponse where
  search_id : Option String
  query : String
  mode : String
  status : String
  requested_sources : List String
  errors : Option (List (String × String))
  results_count : Nat
  total_results : Nat
  page : Nat
  page_size : Nat
  total_pages : Nat
  results : List (ResultItem × ℚ)
  duration_ms : ℚ
  from_cache : Bool
  cache_hit : Option Bool
deriving DecidableEq, Repr

/-- First-occurrence deduplication of a list of source names with the set
of already seen names threaded explicitly: the key order of a Python dict
built by repeated assignment. -/
def firstDedupStr : List String → List String → List String
  | [], _ => []
  | s :: rest, seen =>
    if s ∈ seen then firstDedupStr rest seen
    else s :: firstDedupStr rest (s :: seen)

/-- The handler work set of the search endpoint: the requested sources
that have a registered adapter, in first-occurrence request order (the
loop over request.sources filling the handlers dict). -/
def resolveHandlers (supported sources : List String) : List String :=
  firstDedupStr (sources.filter fun s => supported.contains s) []

/-- The joined per-source successes of the fan-out loop: results are
concatenated in task (handler) order. The oracle fetch gives each task
outcome: a result list or the message of the raised exception. -/
def fanoutResults (fetch : String → Except String (List ResultItem)) :
    List String → List ResultItem
  | [] => []
  | s :: rest =>
    match fetch s with
    | Except.ok rs => rs ++ fanoutResults fetch rest
    | Except.error _ => fanoutResults fetch rest

/-- The joined per-source failures of the fan-out loop, in task order. -/
def fanoutErrors (fetch : String → Except String (List ResultItem)) :
    List String → List (String × String)
  | [] => []
  | s :: rest =>
    match fetch s with
    | Except.ok _ => fanoutErrors fetch rest
    | Except.error e => (s, e) :: fanoutErrors fetch rest

/-- In-place update of the value stored under a key, keeping its
timestamp: the effect on the cache map of mutating, through the alias
returned by cache.get, the dict stored in the cache. -/
def annotateStored {α : Type} (m : List (String × α × Int)) (k : String)
    (v : α) : List (String × α × Int) :=
  m.map fun p => if p.1 = k then (p.1, v, p.2.2) else p

/-- The response assembled by the cache-miss path of the search endpoint:
fan-out join, deduplication, ranking, pagination, status classification
and field assembly, with duration_ms the measured wall time. -/
def pipelineResponse (supported : List String)
    (fetch : String → Except String (List ResultItem)) (req : SearchRequest)
    (duration_ms : ℚ) : SearchResponse :=
  let handlers := resolveHandlers supported req.sources
  let results0 := fanoutResults fetch handlers
  let errors := fanoutErrors fetch handlers
  let deduped := deduplicate_results results0
  let ranked := rank_results deduped req.query
  let total_results := ranked.length
  let start_idx := (req.page - 1) * req.page_size
  let paginated := (ranked.drop start_idx).take req.page_size
  let status :=
    if !errors.isEmpty && !ranked.isEmpty then "partial"
    else if !errors.isEmpty && ranked.isEmpty then "failed"
    else "completed"
  { search_id := none
    query := req.query
    mode := req.mode
    status := status
    requested_sources := req.sources
    errors := if errors.isEmpty then none else some errors
    results_count := paginated.length
    total_results := total_results
    page := req.page
    page_size := req.page_size
    total_pages := (total_results + req.page_size - 1) / req.page_size
    results := paginated
    duration_ms := duration_ms
    from_cache := false
    cache_hit := none }

/-- Embeds the search endpoint of backend/main.py: reject an empty source
list, consult the cache (a hit annotates the returned dict, and through
the alias also the stored entry, with the two cache-hit flags), otherwise
reject when no requested source has an adapter, else run the pipeline and
store the assembled response under the same key. Stored responses are
non-empty dicts, hence always truthy in the hit test. -/
def search (supported : List String)
    (fetch : String → Except String (List ResultItem)) (req : SearchRequest)
    (c : CacheService SearchResponse) (now : Int) (duration_ms : ℚ) :
    Except Nat (SearchResponse × CacheService SearchResponse) :=
  if req.sources.isEmpty then Except.error 400
  else
    match CacheService.get c req.query req.sources req.languages
        req.max_results now with
    | (some cached_result, c1) =>
      let annotated :=
        { cached_result with from_cache := true, cache_hit := some true }
      let key := generate_key req.query req.sources req.languages
        req.max_results
      Except.ok (annotated, { c1 with cache := annotateStored c1.cache key annotated })
    | (none, c1) =>
      if (resolveHandlers supported req.sources).isEmpty then
        Except.error 400
      else
        let resp := pipelineResponse supported fetch req duration_ms
        Except.ok (resp, CacheService.set c1 req.query req.sources
          req.languages req.max_results resp now)

/-! ## Properties of the string comparator and of Python sorted -/

theorem chLe_total : ∀ x y : List Char, chLe x y = true ∨ chLe y x = true := by
  intro x
  induction x with
  | nil => intro y; left; rfl
  | cons c cs ih =>
    intro y
    cases y with
    | nil => right; rfl
    | cons d ds =>
      rcases lt_trichotomy c d with h | h | h
      · left; simp [chLe, h]
      · subst h
        rcases ih ds with h2 | h2
        · left; simp [chLe, lt_irrefl, h2]
        · right; simp [chLe, lt_irrefl, h2]
      · right; simp [chLe, h]

theorem chLe_antisymm : ∀ x y : List Char,
    chLe x y = true → chLe y x = true → x = y := by
  intro x
  induction x with
  | nil =>
    intro y _ h2
    cases y with
    | nil => rfl
    | cons d ds => simp [chLe] at h2
  | cons c cs ih =>
    intro y h1 h2
    cases y with
    | nil => simp [chLe] at h1
    | cons d ds =>
      rcases lt_trichotomy c d with h | h | h
      · simp [chLe, h, not_lt.mpr h.le, h.ne] at h2
      · subst h
        simp only [chLe, lt_irrefl, if_false] at h1 h2
        exact congrArg (c :: ·) (ih ds h1 h2)
      · simp [chLe, h, not_lt.mpr h.le, h.ne] at h1

theorem chLe_trans : ∀ x y z : List Char,
    chLe x y = true → chLe y z = true → chLe x z = true := by
  intro x
  induction x with
  | nil => intro y z _ _; rfl
  | cons c cs ih =>
    intro y z h1 h2
    cases y with
    | nil => simp [chLe] at h1
    | cons d ds =>
      cases z with
      | nil => simp [chLe] at h2
      | cons e es =>
        rcases lt_trichotomy c d with hcd | hcd | hcd
        · rcases lt_trichotomy d e with hde | hde | hde
          · simp [chLe, hcd.trans hde]
          · subst hde; simp [chLe, hcd]
          · simp [chLe, hde, not_lt.mpr hde.le, hde.ne] at h2
        · subst hcd
          rcases lt_trichotomy c e with hce | hce | hce
          · simp [chLe, hce]
          · subst hce
            simp only [chLe, lt_irrefl, if_false] at h1 h2 ⊢
            exact ih ds es h1 h2
          · simp [chLe, hce, not_lt.mpr hce.le, hce.ne] at h2
        · simp [chLe, hcd, not_lt.mpr hcd.le, hcd.ne] at h1

instance : IsTotal String (fun a b => pyStrLe a b = true) :=
  ⟨fun a b => chLe_total a.data b.data⟩

instance : IsTrans String (fun a b => pyStrLe a b = true) :=
  ⟨fun a b c h1 h2 => chLe_trans a.data b.data c.data h1 h2⟩

instance : IsAntisymm String (fun a b => pyStrLe a b = true) := by
  refine ⟨fun a b h1 h2 => ?_⟩
  cases a; cases b
  exact congrArg String.mk (chLe_antisymm _ _ h1 h2)

theorem pySorted_perm_eq {l l' : List String} (h : l.Perm l') :
    pySorted l = pySorted l' :=
  List.eq_of_perm_of_sorted
    ((List.perm_insertionSort _ l).trans
      (h.trans (List.perm_insertionSort _ l').symm))
    (List.sorted_insertionSort _ l) (List.sorted_insertionSort _ l')

/-- C1: the cache key derived by CacheService._generate_key is invariant
under any permutation of the sources list and of the languages list, so
get and set with permuted lists address the same cache entry; the key is
a function of the query string, the two sorted lists and the result limit
only, and these are the only list-valued inputs, so the key depends on the
order of nothing else. -/
theorem generate_key_perm_invariant (query : String) (max_results : Nat)
    (sources sources2 languages languages2 : List String)
    (hs : sources.Perm sources2) (hl : languages.Perm languages2) :
    generate_key query sources languages max_results =
      generate_key query sources2 languages2 max_results ∧
    (∀ (α : Type) (s : CacheService α) (now : Int),
      CacheService.get s query sources languages max_results now =
        CacheService.get s query sources2 languages2 max_results now) ∧
    (∀ (α : Type) (s : CacheService α) (v : α) (now : Int),
      CacheService.set s query sources languages max_results v now =
        CacheService.set s query sources2 languages2 max_results v now) := by
  have hkey : generate_key query sources languages max_results =
      generate_key query sources2 languages2 max_results := by
    simp only [generate_key, pySorted_perm_eq hs, pySorted_perm_eq hl]
  refine ⟨hkey, ?_, ?_⟩
  · intro α s now
    simp only [CacheService.get, hkey]
  · intro α s v now
    simp only [CacheService.set, hkey]

/-- Witness for generate_key_perm_invariant at concrete permuted lists. -/
theorem generate_key_perm_invariant_witness :
    (["b", "a"] : List String).Perm ["a", "b"] ∧
    (["it", "en"] : List String).Perm ["en", "it"] ∧
    generate_key "q" ["b", "a"] ["it", "en"] 5 =
      generate_key "q" ["a", "b"] ["en", "it"] 5 :=
  ⟨by decide, by decide,
    (generate_key_perm_invariant "q" 5 ["b", "a"] ["a", "b"] ["it", "en"]
      ["en", "it"] (by decide) (by decide)).1⟩

/-! ## Association-list lemmas for the cache map -/

theorem dictGet_filterNe {β : Type} (m : List (String × β)) (k : String) :
    dictGet (m.filter fun p => p.1 != k) k = none := by
  induction m with
  | nil => rfl
  | cons p rest ih =>
    obtain ⟨k', v⟩ := p
    rw [List.filter_cons]
    by_cases h : k' = k
    · rw [if_neg (by simp [h])]
      exact ih
    · rw [if_pos (by simp [h])]
      simp only [dictGet, if_neg h]
      exact ih

theorem dictGet_append_left_none {β : Type} (m₁ m₂ : List (String × β))
    (k : String) (h : dictGet m₁ k = none) :
    dictGet (m₁ ++ m₂) k = dictGet m₂ k := by
  induction m₁ with
  | nil => rfl
  | cons p rest ih =>
    obtain ⟨k', v⟩ := p
    by_cases hk : k' = k
    · rw [hk] at h
      simp [dictGet] at h
    · simp only [dictGet, if_neg hk] at h
      simp only [List.cons_append, dictGet, if_neg hk]
      exact ih h

theorem dictGet_dictSet_self {β : Type} (m : List (String × β)) (k : String)
    (v : β) : dictGet (dictSet m k v) k = some v := by
  unfold dictSet
  rw [dictGet_append_left_none _ _ _ (dictGet_filterNe m k)]
  simp [dictGet]

theorem dictGet_filter_of_pred {β : Type} (m : List (String × β))
    (k : String) (v : β) (q : String × β → Bool) (h : dictGet m k = some v)
    (hq : q (k, v) = true) : dictGet (m.filter q) k = some v := by
  induction m with
  | nil => simp [dictGet] at h
  | cons p rest ih =>
    obtain ⟨k', v'⟩ := p
    rw [List.filter_cons]
    by_cases hk : k' = k
    · have hv : v' = v := by
        rw [hk] at h
        simpa [dictGet] using h
      rw [hk, hv, if_pos hq]
      simp [dictGet]
    · simp only [dictGet, if_neg hk] at h
      cases hfilt : q (k', v') with
      | true =>
        rw [if_pos rfl]
        simp only [dictGet, if_neg hk]
        exact ih h
      | false =>
        rw [if_neg (by simp)]
        exact ih h

/-- After CacheService.set with a positive TTL, the written entry is
present under the derived key with the write timestamp, whether or not the
size-triggered sweep ran, and the TTL and both counters are unchanged. -/
theorem CacheService.set_entry {α : Type} (s : CacheService α)
    (query : String) (sources languages : List String) (max_results : Nat)
    (v : α) (T : Int) (httl : 0 < s.ttl_seconds) :
    dictGet (CacheService.set s query sources languages max_results v T).cache
        (generate_key query sources languages max_results) = some (v, T) ∧
    (CacheService.set s query sources languages max_results v T).ttl_seconds =
      s.ttl_seconds ∧
    (CacheService.set s query sources languages max_results v T).hits = s.hits ∧
    (CacheService.set s query sources languages max_results v T).misses =
      s.misses := by
  unfold CacheService.set
  by_cases hlen :
      1000 < (dictSet s.cache (generate_key query sources languages
        max_results) (v, T)).length
  · rw [if_pos hlen]
    unfold CacheService.cleanup_old_entries
    refine ⟨?_, rfl, rfl, rfl⟩
    exact dictGet_filter_of_pred _ _ _ _ (dictGet_dictSet_self _ _ _)
      (by simp [httl])
  · rw [if_neg hlen]
    exact ⟨dictGet_dictSet_self _ _ _, rfl, rfl, rfl⟩

/-- C2: an entry written at time T with a positive configured TTL is
returned, and counted as a hit, by a get with the same parameters at any
time strictly before T plus TTL, while a get at or after T plus TTL
returns nothing, is counted as a miss, and removes the entry from the
map. -/
theorem cache_ttl_roundtrip {α : Type} (s : CacheService α) (query : String)
    (sources languages : List String) (max_results : Nat) (v : α)
    (T now now2 : Int) (httl : 0 < s.ttl_seconds) :
    (now < T + s.ttl_seconds →
      (CacheService.get (CacheService.set s query sources languages
          max_results v T) query sources languages max_results now).1 =
        some v ∧
      ((CacheService.get (CacheService.set s query sources languages
          max_results v T) query sources languages max_results now).2).hits =
        s.hits + 1) ∧
    (T + s.ttl_seconds ≤ now2 →
      (CacheService.get (CacheService.set s query sources languages
          max_results v T) query sources languages max_results now2).1 =
        none ∧
      ((CacheService.get (CacheService.set s query sources languages
          max_results v T) query sources languages max_results now2).2).misses =
        s.misses + 1 ∧
      dictGet ((CacheService.get (CacheService.set s query sources languages
          max_results v T) query sources languages max_results
          now2).2).cache
        (generate_key query sources languages max_results) = none) := by
  obtain ⟨hent, httl2, hhits, hmiss⟩ :=
    CacheService.set_entry s query sources languages max_results v T httl
  constructor
  · intro hfresh
    have hcond : now - T <
        (CacheService.set s query sources languages max_results v
          T).ttl_seconds := by omega
    simp only [CacheService.get, hent, if_pos hcond]
    exact ⟨trivial, by rw [hhits]⟩
  · intro hstale
    have hcond : ¬(now2 - T <
        (CacheService.set s query sources languages max_results v
          T).ttl_seconds) := by omega
    simp only [CacheService.get, hent, if_neg hcond]
    refine ⟨trivial, by rw [hmiss], ?_⟩
    exact dictGet_filterNe _ _

/-- Witness for cache_ttl_roundtrip: TTL 1800, write at time 0, a read at
time 100 hits and a read at time 1800 misses and evicts. -/
theorem cache_ttl_roundtrip_witness :
    (0 : Int) < (CacheService.init (α := Nat) 1800).ttl_seconds ∧
    ((100 : Int) < 0 + (CacheService.init (α := Nat) 1800).ttl_seconds →
      (CacheService.get (CacheService.set (CacheService.init 1800) "q" ["a"]
          ["en"] 5 (42 : Nat) 0) "q" ["a"] ["en"] 5 100).1 = some 42 ∧
      ((CacheService.get (CacheService.set (CacheService.init 1800) "q" ["a"]
          ["en"] 5 (42 : Nat) 0) "q" ["a"] ["en"] 5 100).2).hits =
        (CacheService.init (α := Nat) 1800).hits + 1) ∧
    ((0 : Int) + (CacheService.init (α := Nat) 1800).ttl_seconds ≤ 1800 →
      (CacheService.get (CacheService.set (CacheService.init 1800) "q" ["a"]
          ["en"] 5 (42 : Nat) 0) "q" ["a"] ["en"] 5 1800).1 = none ∧
      ((CacheService.get (CacheService.set (CacheService.init 1800) "q" ["a"]
          ["en"] 5 (42 : Nat) 0) "q" ["a"] ["en"] 5 1800).2).misses =
        (CacheService.init (α := Nat) 1800).misses + 1 ∧
      dictGet ((CacheService.get (CacheService.set (CacheService.init 1800)
          "q" ["a"] ["en"] 5 (42 : Nat) 0) "q" ["a"] ["en"] 5
          1800).2).cache (generate_key "q" ["a"] ["en"] 5) = none) := by
  have h := cache_ttl_roundtrip (CacheService.init (α := Nat) 1800) "q" ["a"]
    ["en"] 5 42 0 100 1800 (by decide)
  exact ⟨by decide, h.1, h.2⟩

/-! ## Deduplication lemmas -/

theorem dedupAux_sublist :
    ∀ (l : List ResultItem) (seen : List String),
      (dedupAux l seen).Sublist l := by
  intro l
  induction l with
  | nil => intro seen; simp [dedupAux]
  | cons r rest ih =>
    intro seen
    simp only [dedupAux]
    by_cases h : normKey r ∈ seen
    · rw [if_pos h]
      exact (ih seen).cons r
    · rw [if_neg h]
      exact (ih _).cons₂ r

theorem dedupAux_congr_seen :
    ∀ (l : List ResultItem) (seen seen2 : List String),
      (∀ x ∈ l, (normKey x ∈ seen ↔ normKey x ∈ seen2)) →
      dedupAux l seen = dedupAux l seen2 := by
  intro l
  induction l with
  | nil => intro seen seen2 _; rfl
  | cons r rest ih =>
    intro seen seen2 h
    have hr := h r (List.mem_cons_self r rest)
    simp only [dedupAux]
    by_cases hm : normKey r ∈ seen
    · rw [if_pos hm, if_pos (hr.mp hm)]
      exact ih seen seen2 fun x hx => h x (List.mem_cons_of_mem r hx)
    · rw [if_neg hm, if_neg fun hc => hm (hr.mpr hc)]
      refine congrArg (r :: ·) (ih _ _ fun x hx => ?_)
      simp only [List.mem_cons]
      exact or_congr Iff.rfl (h x (List.mem_cons_of_mem r hx))

theorem dedupAux_filter_seen :
    ∀ (l : List ResultItem) (seen : List String) (n : String), n ∈ seen →
      dedupAux (l.filter fun x => normKey x != n) seen = dedupAux l seen := by
  intro l
  induction l with
  | nil => intro seen n _; rfl
  | cons r rest ih =>
    intro seen n hn
    rw [List.filter_cons]
    by_cases hr : normKey r = n
    · rw [if_neg (by simp [hr])]
      have : dedupAux (r :: rest) seen = dedupAux rest seen := by
        simp only [dedupAux]
        rw [if_pos (hr ▸ hn)]
      rw [this]
      exact ih seen n hn
    · rw [if_pos (by simp [hr])]
      simp only [dedupAux]
      by_cases hm : normKey r ∈ seen
      · rw [if_pos hm, if_pos hm]
        exact ih seen n hn
      · rw [if_neg hm, if_neg hm]
        exact congrArg (r :: ·) (ih _ n (List.mem_cons_of_mem _ hn))

theorem dedupAux_drop_seen :
    ∀ (l : List ResultItem) (seen : List String) (n : String),
      (∀ x ∈ l, normKey x ≠ n) →
      dedupAux l (n :: seen) = dedupAux l seen := by
  intro l seen n h
  refine dedupAux_congr_seen l _ _ fun x hx => ?_
  simp [List.mem_cons, h x hx]

theorem dedup_eq_firstOccurrence_fuel :
    ∀ (fuel : Nat) (l : List ResultItem), l.length ≤ fuel →
      dedupAux l [] = firstOccurrence l := by
  intro fuel
  induction fuel with
  | zero =>
    intro l hl
    rw [List.length_eq_zero.mp (Nat.le_zero.mp hl)]
    simp [dedupAux, firstOccurrence]
  | succ fuel ih =>
    intro l hl
    cases l with
    | nil => simp [dedupAux, firstOccurrence]
    | cons r rest =>
      have h1 : dedupAux (r :: rest) [] =
          r :: dedupAux rest [normKey r] := by
        simp only [dedupAux]
        rw [if_neg (List.not_mem_nil _)]
      have h2 : dedupAux rest [normKey r] =
          dedupAux (rest.filter fun x => normKey x != normKey r)
            [normKey r] :=
        (dedupAux_filter_seen rest [normKey r] (normKey r)
          (List.mem_singleton_self _)).symm
      have h3 : dedupAux (rest.filter fun x => normKey x != normKey r)
          [normKey r] =
          dedupAux (rest.filter fun x => normKey x != normKey r) [] := by
        refine dedupAux_drop_seen _ [] (normKey r) fun x hx => ?_
        have := List.of_mem_filter hx
        simpa using this
      have h4 : dedupAux (rest.filter fun x => normKey x != normKey r) [] =
          firstOccurrence (rest.filter fun x => normKey x != normKey r) := by
        refine ih _ ?_
        calc (rest.filter fun x => normKey x != normKey r).length
            ≤ rest.length := List.length_filter_le _ _
          _ ≤ fuel := by simpa using hl
      rw [h1, h2, h3, h4, firstOccurrence]

/-- C3 (amended): deduplicate_results keeps, in input order, exactly the
first result of every duplicate class, where two results are duplicates
when their url fields (missing ones defaulting to the empty string)
normalize identically under the implemented normalization, which
lowercases, strips every trailing slash, and removes every occurrence of
the scheme strings and of the www-dot string anywhere in the URL; the
output is a sublist of the input. -/
theorem deduplicate_results_characterization (l : List ResultItem) :
    deduplicate_results l = firstOccurrence l ∧
    (deduplicate_results l).Sublist l :=
  ⟨dedup_eq_firstOccurrence_fuel l.length l le_rfl, dedupAux_sublist l []⟩

/-- First result of the counterexample to the spec normalization: the url
contains a www-dot in its path. -/
def resultWwwPath : ResultItem :=
  { title := some "A", url := some "http://x.com/www.y",
    snippet := some "", source := some "s1" }

/-- Second result of the counterexample: the url of resultWwwPath with the
path www-dot removed. -/
def resultPlainPath : ResultItem :=
  { title := some "B", url := some "http://x.com/y",
    snippet := some "", source := some "s2" }

/-- Counterexample to C3 as stated: under the normalization worded by the
spec (strip only a leading scheme, a leading www-dot and one trailing
slash) the two urls are distinct, so the claim says both results survive;
the implemented normalization removes the www-dot inside the path as
well, so deduplicate_results drops the second result. -/
theorem deduplicate_results_spec_normalization_counterexample :
    specNormalizeUrl "http://x.com/www.y" ≠ specNormalizeUrl "http://x.com/y" ∧
    normalize_url "http://x.com/www.y" = normalize_url "http://x.com/y" ∧
    deduplicate_results [resultWwwPath, resultPlainPath] = [resultWwwPath] := by
  refine ⟨by decide, by decide, by decide⟩

theorem dedupAux_keys_nodup :
    ∀ (l : List ResultItem) (seen : List String),
      (∀ x ∈ dedupAux l seen, normKey x ∉ seen) ∧
      ((dedupAux l seen).map normKey).Nodup := by
  intro l
  induction l with
  | nil => intro seen; simp [dedupAux]
  | cons r rest ih =>
    intro seen
    simp only [dedupAux]
    by_cases hm : normKey r ∈ seen
    · rw [if_pos hm]
      exact ih seen
    · rw [if_neg hm]
      obtain ⟨ihm, ihn⟩ := ih (normKey r :: seen)
      refine ⟨?_, ?_⟩
      · intro x hx
        rcases List.mem_cons.mp hx with hx | hx
        · rw [hx]; exact hm
        · exact fun hs => ihm x hx (List.mem_cons_of_mem _ hs)
      · rw [List.map_cons]
        refine List.Nodup.cons ?_ ihn
        intro hmem
        obtain ⟨x, hx, hkx⟩ := List.mem_map.mp hmem
        exact ihm x hx (by rw [hkx]; exact List.mem_cons_self _ _)

theorem dedupAux_mem_first :
    ∀ (l₁ : List ResultItem) (r : ResultItem) (l₂ : List ResultItem)
      (seen : List String), normKey r ∉ seen →
      (∀ x ∈ l₁, normKey x ≠ normKey r) →
      r ∈ dedupAux (l₁ ++ r :: l₂) seen := by
  intro l₁
  induction l₁ with
  | nil =>
    intro r l₂ seen hr _
    simp only [List.nil_append, dedupAux]
    rw [if_neg hr]
    exact List.mem_cons_self _ _
  | cons x rest ih =>
    intro r l₂ seen hr hall
    simp only [List.cons_append, dedupAux]
    by_cases hm : normKey x ∈ seen
    · rw [if_pos hm]
      exact ih r l₂ seen hr fun y hy => hall y (List.mem_cons_of_mem _ hy)
    · rw [if_neg hm]
      refine List.mem_cons_of_mem _ ?_
      refine ih r l₂ _ ?_ fun y hy => hall y (List.mem_cons_of_mem _ hy)
      intro hc
      rcases List.mem_cons.mp hc with hc | hc
      · exact hall x (List.mem_cons_self _ _) hc.symm
      · exact hr hc

/-- C10: the results whose url field is missing, or whose url normalizes
to the empty string, form one duplicate class; when the input contains
such results, the first of them in input order survives deduplication and
every surviving result of the class equals it. -/
theorem deduplicate_results_empty_url_class (l₁ l₂ : List ResultItem)
    (r : ResultItem) (hr : r.url = none ∨ normKey r = "")
    (h₁ : ∀ x ∈ l₁, normKey x ≠ "") :
    normKey r = "" ∧
    r ∈ deduplicate_results (l₁ ++ r :: l₂) ∧
    ∀ x ∈ deduplicate_results (l₁ ++ r :: l₂),
      (x.url = none ∨ normKey x = "") → x = r := by
  have hnone : ∀ y : ResultItem, y.url = none → normKey y = "" := by
    intro y hy
    unfold normKey
    rw [hy]
    decide
  have hkey : normKey r = "" := by
    rcases hr with h | h
    · exact hnone r h
    · exact h
  have hmem : r ∈ deduplicate_results (l₁ ++ r :: l₂) := by
    refine dedupAux_mem_first l₁ r l₂ [] (List.not_mem_nil _) ?_
    intro x hx
    rw [hkey]
    exact h₁ x hx
  refine ⟨hkey, hmem, ?_⟩
  intro x hx hclass
  have hxkey : normKey x = "" := by
    rcases hclass with h | h
    · exact hnone x h
    · exact h
  have hnodup := (dedupAux_keys_nodup (l₁ ++ r :: l₂) []).2
  exact List.inj_on_of_nodup_map hnodup hx hmem (by rw [hxkey, hkey])

/-- Witness for deduplicate_results_empty_url_class: a list whose first
element has a real url and whose second and third elements are both in the
empty-normalization class (one url missing, one url that is just a
slash). -/
theorem deduplicate_results_empty_url_class_witness :
    ((⟨some "first", none, none, none⟩ : ResultItem).url = none ∨
      normKey ⟨some "first", none, none, none⟩ = "") ∧
    (∀ x ∈ [(⟨none, some "http://a.com", none, none⟩ : ResultItem)],
      normKey x ≠ "") ∧
    (⟨some "first", none, none, none⟩ : ResultItem) ∈
      deduplicate_results
        ([⟨none, some "http://a.com", none, none⟩] ++
          (⟨some "first", none, none, none⟩ : ResultItem) ::
            [⟨some "second", some "/", none, none⟩]) ∧
    ∀ x ∈ deduplicate_results
        ([⟨none, some "http://a.com", none, none⟩] ++
          (⟨some "first", none, none, none⟩ : ResultItem) ::
            [⟨some "second", some "/", none, none⟩]),
      (x.url = none ∨ normKey x = "") →
        x = ⟨some "first", none, none, none⟩ := by
  have h := deduplicate_results_empty_url_class
    [⟨none, some "http://a.com", none, none⟩]
    [⟨some "second", some "/", none, none⟩]
    ⟨some "first", none, none, none⟩ (by decide) (by decide)
  exact ⟨by decide, by decide, h.2.1, h.2.2⟩

/-! ## Ranking monotonicity -/

/-- A result whose title has 15 words, one of which is the query keyword. -/
def resultTitle15 : ResultItem :=
  { title := some "q a b c d e f g h i j k l m n", url := none,
    snippet := none, source := none }

/-- The same result with one more occurrence of the query keyword appended
to the title, for 16 title words. -/
def resultTitle16 : ResultItem :=
  { title := some "q a b c d e f g h i j k l m n q", url := none,
    snippet := none, source := none }

/-- Counterexample to C6 as stated: the two results are identical except
that the title of resultTitle16 contains one more occurrence of the query
keyword q, yet its score is strictly smaller, because growing the title
from 15 to 16 words forfeits the +2 title-length shaping bonus while the
keyword set intersection is unchanged. -/
theorem calculate_score_extra_keyword_counterexample :
    resultTitle16.snippet = resultTitle15.snippet ∧
    resultTitle16.url = resultTitle15.url ∧
    resultTitle16.source = resultTitle15.source ∧
    (findWords (strLower (resultTitle16.title.getD ""))).count "q" =
      (findWords (strLower (resultTitle15.title.getD ""))).count "q" + 1 ∧
    calculate_score resultTitle16 {"q"} "q" <
      calculate_score resultTitle15 {"q"} "q" := by
  have e15 : calculate_score resultTitle15 {"q"} "q" = 14 := by
    have e1 : strLower (resultTitle15.title.getD "") =
        "q a b c d e f g h i j k l m n" := by decide
    have e2 : strLower (resultTitle15.snippet.getD "") = "" := by decide
    have e3 : strLower (resultTitle15.url.getD "") = "" := by decide
    have c1 : containsSub "q".data "q a b c d e f g h i j k l m n".data =
        true := by decide
    have c2 : (({"q"} : Finset String) ∩
        (findWords "q a b c d e f g h i j k l m n").toFinset).card = 1 := by
      decide
    have c3 : containsSub "q".data "".data = false := by decide
    have c4 : (({"q"} : Finset String) ∩ (findWords "").toFinset).card = 0 := by
      decide
    have c5 : domain_authority_score "" = 0 := by
      simp [domain_authority_score,
        (by decide : high_authority.any (fun d => containsSub d.data "".data) =
          false),
        (by decide : "https://".data.isPrefixOf "".data = false)]
    have c6 : title_length_score "q a b c d e f g h i j k l m n" = 2 := by
      simp [title_length_score,
        (by decide : (splitWs "q a b c d e f g h i j k l m n").length = 15)]
    have c7 : snippet_length_score "" = -1 := by
      simp [snippet_length_score, (by decide : (splitWs "").length = 0)]
    simp only [calculate_score, e1, e2, e3, c1, c2, c3, c4, c5, c6, c7]
    norm_num
  have e16 : calculate_score resultTitle16 {"q"} "q" = 12 := by
    have e1 : strLower (resultTitle16.title.getD "") =
        "q a b c d e f g h i j k l m n q" := by decide
    have e2 : strLower (resultTitle16.snippet.getD "") = "" := by decide
    have e3 : strLower (resultTitle16.url.getD "") = "" := by decide
    have c1 : containsSub "q".data "q a b c d e f g h i j k l m n q".data =
        true := by decide
    have c2 : (({"q"} : Finset String) ∩
        (findWords "q a b c d e f g h i j k l m n q").toFinset).card = 1 := by
      decide
    have c3 : containsSub "q".data "".data = false := by decide
    have c4 : (({"q"} : Finset String) ∩ (findWords "").toFinset).card = 0 := by
      decide
    have c5 : domain_authority_score "" = 0 := by
      simp [domain_authority_score,
        (by decide : high_authority.any (fun d => containsSub d.data "".data) =
          false),
        (by decide : "https://".data.isPrefixOf "".data = false)]
    have c6 : title_length_score "q a b c d e f g h i j k l m n q" = 0 := by
      simp [title_length_score,
        (by decide : (splitWs "q a b c d e f g h i j k l m n q").length = 16)]
    have c7 : snippet_length_score "" = -1 := by
      simp [snippet_length_score, (by decide : (splitWs "").length = 0)]
    simp only [calculate_score, e1, e2, e3, c1, c2, c3, c4, c5, c6, c7]
    norm_num
  refine ⟨rfl, rfl, rfl, by decide, ?_⟩
  rw [e15, e16]
  norm_num

/-- C6 (amended): for two results identical except in the title, the score
never decreases when the title word set grows (keyword intersections can
only grow), provided the extra occurrence changes neither the
exact-query-substring indicator on the title nor decreases the
title-length shaping term; without that proviso the score can drop, as
the counterexample shows. -/
theorem calculate_score_title_monotone (r r2 : ResultItem)
    (qk : Finset String) (ql : String)
    (hsnip : r2.snippet = r.snippet) (hurl : r2.url = r.url)
    (hsub : containsSub ql.data (strLower (r2.title.getD "")).data =
      containsSub ql.data (strLower (r.title.getD "")).data)
    (hwords : (findWords (strLower (r.title.getD ""))).toFinset ⊆
      (findWords (strLower (r2.title.getD ""))).toFinset)
    (hlen : title_length_score (strLower (r.title.getD "")) ≤
      title_length_score (strLower (r2.title.getD ""))) :
    calculate_score r qk ql ≤ calculate_score r2 qk ql := by
  simp only [calculate_score, hsnip, hurl, hsub]
  have hcard : ((qk ∩ (findWords (strLower (r.title.getD ""))).toFinset).card
      : ℚ) ≤
      ((qk ∩ (findWords (strLower (r2.title.getD ""))).toFinset).card : ℚ) := by
    exact_mod_cast Finset.card_le_card
      (Finset.inter_subset_inter (Finset.Subset.refl qk) hwords)
  gcongr

/-- Witness for calculate_score_title_monotone: the second title has one
more occurrence of the keyword cat and both titles stay in the 3 to 15
word band. -/
theorem calculate_score_title_monotone_witness :
    ((⟨some "cat dog bird cat", none, none, none⟩ : ResultItem).snippet =
      (⟨some "cat dog bird", none, none, none⟩ : ResultItem).snippet) ∧
    ((⟨some "cat dog bird cat", none, none, none⟩ : ResultItem).url =
      (⟨some "cat dog bird", none, none, none⟩ : ResultItem).url) ∧
    calculate_score ⟨some "cat dog bird", none, none, none⟩ {"cat"} "cat" ≤
      calculate_score ⟨some "cat dog bird cat", none, none, none⟩ {"cat"}
        "cat" := by
  refine ⟨rfl, rfl, ?_⟩
  refine calculate_score_title_monotone _ _ _ _ rfl rfl (by decide) (by decide)
    ?_
  have l1 : (splitWs (strLower "cat dog bird")).length = 3 := by decide
  have l2 : (splitWs (strLower "cat dog bird cat")).length = 4 := by decide
  simp [title_length_score, l1, l2]

/-! ## Search endpoint lemmas -/

theorem pipelineResponse_from_cache (supported : List String)
    (fetch : String → Except String (List ResultItem)) (req : SearchRequest)
    (d : ℚ) : (pipelineResponse supported fetch req d).from_cache = false :=
  rfl

theorem pipelineResponse_results (supported : List String)
    (fetch : String → Except String (List ResultItem)) (req : SearchRequest)
    (d : ℚ) :
    (pipelineResponse supported fetch req d).results =
      ((rank_results (deduplicate_results (fanoutResults fetch
          (resolveHandlers supported req.sources))) req.query).drop
        ((req.page - 1) * req.page_size)).take req.page_size :=
  rfl

theorem pipelineResponse_total_results (supported : List String)
    (fetch : String → Except String (List ResultItem)) (req : SearchRequest)
    (d : ℚ) :
    (pipelineResponse supported fetch req d).total_results =
      (rank_results (deduplicate_results (fanoutResults fetch
        (resolveHandlers supported req.sources))) req.query).length :=
  rfl

theorem pipelineResponse_total_pages (supported : List String)
    (fetch : String → Except String (List ResultItem)) (req : SearchRequest)
    (d : ℚ) :
    (pipelineResponse supported fetch req d).total_pages =
      ((rank_results (deduplicate_results (fanoutResults fetch
          (resolveHandlers supported req.sources))) req.query).length +
        req.page_size - 1) / req.page_size :=
  rfl

theorem pipelineResponse_status_eq (supported : List String)
    (fetch : String → Except String (List ResultItem)) (req : SearchRequest)
    (d : ℚ) :
    (pipelineResponse supported fetch req d).status =
      if fanoutErrors fetch (resolveHandlers supported req.sources) = [] then
        "completed"
      else if rank_results (deduplicate_results (fanoutResults fetch
          (resolveHandlers supported req.sources))) req.query = [] then
        "failed"
      else "partial" := by
  cases herrs : fanoutErrors fetch (resolveHandlers supported req.sources) with
  | nil => simp [pipelineResponse, herrs]
  | cons e es =>
    cases hrank : rank_results (deduplicate_results (fanoutResults fetch
        (resolveHandlers supported req.sources))) req.query with
    | nil => simp [pipelineResponse, herrs, hrank]
    | cons r rs => simp [pipelineResponse, herrs, hrank]

/-- The hit path of the search endpoint as an equation. -/
theorem search_hit_eq (supported : List String)
    (fetch : String → Except String (List ResultItem)) (req : SearchRequest)
    (c : CacheService SearchResponse) (now : Int) (d : ℚ)
    (cr : SearchResponse) (c1 : CacheService SearchResponse)
    (hsrc : req.sources.isEmpty = false)
    (hget : CacheService.get c req.query req.sources req.languages
      req.max_results now = (some cr, c1)) :
    search supported fetch req c now d =
      Except.ok ({ cr with from_cache := true, cache_hit := some true },
        { c1 with cache := (annotateStored c1.cache
          (generate_key req.query req.sources req.languages req.max_results)
          { cr with from_cache := true, cache_hit := some true }) }) := by
  unfold search
  rw [if_neg (by simp [hsrc]), hget]

/-- The miss path of the search endpoint as an equation. -/
theorem search_miss_eq (supported : List String)
    (fetch : String → Except String (List ResultItem)) (req : SearchRequest)
    (c : CacheService SearchResponse) (now : Int) (d : ℚ)
    (c1 : CacheService SearchResponse)
    (hsrc : req.sources.isEmpty = false)
    (hget : CacheService.get c req.query req.sources req.languages
      req.max_results now = (none, c1))
    (hh : (resolveHandlers supported req.sources).isEmpty = false) :
    search supported fetch req c now d =
      Except.ok (pipelineResponse supported fetch req d,
        CacheService.set c1 req.query req.sources req.languages
          req.max_results (pipelineResponse supported fetch req d) now) := by
  unfold search
  rw [if_neg (by simp [hsrc]), hget]
  dsimp only
  rw [if_neg (by simp [hh])]

/-- Inversion of a successful search whose response is not a cache hit:
the run took the miss path and its response is the pipeline response. -/
theorem search_ok_miss {supported : List String}
    {fetch : String → Except String (List ResultItem)} {req : SearchRequest}
    {c : CacheService SearchResponse} {now : Int} {d : ℚ}
    {resp : SearchResponse} {c2 : CacheService SearchResponse}
    (h : search supported fetch req c now d = Except.ok (resp, c2))
    (hf : resp.from_cache = false) :
    resp = pipelineResponse supported fetch req d ∧
    c2 = CacheService.set
      (CacheService.get c req.query req.sources req.languages
        req.max_results now).2
      req.query req.sources req.languages req.max_results
      (pipelineResponse supported fetch req d) now ∧
    (CacheService.get c req.query req.sources req.languages
      req.max_results now).1 = none ∧
    req.sources.isEmpty = false ∧
    (resolveHandlers supported req.sources).isEmpty = false := by
  by_cases hs : req.sources.isEmpty
  · rw [search, if_pos hs] at h
    exact absurd h (by simp)
  · rcases hget : CacheService.get c req.query req.sources req.languages
        req.max_results now with ⟨o, c1⟩
    cases o with
    | some cr =>
      rw [search_hit_eq supported fetch req c now d cr c1
        (Bool.not_eq_true _ ▸ hs) hget] at h
      have hresp := (Prod.mk.inj (Except.ok.inj h)).1
      rw [← hresp] at hf
      simp at hf
    | none =>
      by_cases hh : (resolveHandlers supported req.sources).isEmpty
      · rw [search, if_neg hs, hget] at h
        dsimp only at h
        rw [if_pos hh] at h
        exact absurd h (by simp)
      · rw [search_miss_eq supported fetch req c now d c1
          (Bool.not_eq_true _ ▸ hs) hget
          (Bool.not_eq_true _ ▸ hh)] at h
        have h2 := Prod.mk.inj (Except.ok.inj h)
        exact ⟨h2.1.symm, h2.2.symm, rfl, Bool.not_eq_true _ ▸ hs,
          Bool.not_eq_true _ ▸ hh⟩

/-- C4: for every search run that reaches the pipeline (a cache miss, so
the response is not flagged as from cache), the status is completed when
the per-source error map is empty, partial when both the pre-pagination
result list and the error map are non-empty, failed when the error map is
non-empty and the result list is empty, and nothing else. -/
theorem search_status_classification (supported : List String)
    (fetch : String → Except String (List ResultItem)) (req : SearchRequest)
    (c : CacheService SearchResponse) (now : Int) (d : ℚ)
    (resp : SearchResponse) (c2 : CacheService SearchResponse)
    (h : search supported fetch req c now d = Except.ok (resp, c2))
    (hf : resp.from_cache = false) :
    (fanoutErrors fetch (resolveHandlers supported req.sources) = [] →
      resp.status = "completed") ∧
    (fanoutErrors fetch (resolveHandlers supported req.sources) ≠ [] →
      rank_results (deduplicate_results (fanoutResults fetch
        (resolveHandlers supported req.sources))) req.query ≠ [] →
      resp.status = "partial") ∧
    (fanoutErrors fetch (resolveHandlers supported req.sources) ≠ [] →
      rank_results (deduplicate_results (fanoutResults fetch
        (resolveHandlers supported req.sources))) req.query = [] →
      resp.status = "failed") ∧
    (resp.status = "completed" ∨ resp.status = "partial" ∨
      resp.status = "failed") := by
  obtain ⟨hresp, -, -, -, -⟩ := search_ok_miss h hf
  subst hresp
  rw [pipelineResponse_status_eq]
  refine ⟨fun he => ?_, fun he hr => ?_, fun he hr => ?_, ?_⟩
  · rw [if_pos he]
  · rw [if_neg he, if_neg hr]
  · rw [if_neg he, if_pos hr]
  · by_cases he : fanoutErrors fetch (resolveHandlers supported req.sources)
        = []
    · left; rw [if_pos he]
    · by_cases hr : rank_results (deduplicate_results (fanoutResults fetch
          (resolveHandlers supported req.sources))) req.query = []
      · right; right; rw [if_neg he, if_pos hr]
      · right; left; rw [if_neg he, if_neg hr]

/-- Fan-out oracle for the status witness: one source succeeds with one
result, every other source fails. -/
def fetchPartial : String → Except String (List ResultItem) := fun s =>
  if s = "duckduckgo" then
    Except.ok [⟨some "t", some "https://e.com", some "sn", some "duckduckgo"⟩]
  else Except.error "boom"

/-- Request for the status witness: two sources, both supported. -/
def reqTwoSources : SearchRequest :=
  { query := "q", mode := "aggregation", languages := ["en"],
    sources := ["duckduckgo", "bing"], max_results := 5, page := 1,
    page_size := 10 }

/-- Witness for search_status_classification: one failing and one
succeeding source give status partial. -/
theorem search_status_classification_witness :
    fanoutErrors fetchPartial
      (resolveHandlers ["duckduckgo", "bing"] reqTwoSources.sources) ≠ [] ∧
    rank_results (deduplicate_results (fanoutResults fetchPartial
      (resolveHandlers ["duckduckgo", "bing"] reqTwoSources.sources)))
      reqTwoSources.query ≠ [] ∧
    (pipelineResponse ["duckduckgo", "bing"] fetchPartial reqTwoSources
      0).status = "partial" := by
  have h : search ["duckduckgo", "bing"] fetchPartial reqTwoSources
      (CacheService.init 1800) 0 0 =
      Except.ok (pipelineResponse ["duckduckgo", "bing"] fetchPartial
        reqTwoSources 0,
        CacheService.set
          (CacheService.get (CacheService.init 1800) reqTwoSources.query
            reqTwoSources.sources reqTwoSources.languages
            reqTwoSources.max_results 0).2
          reqTwoSources.query reqTwoSources.sources reqTwoSources.languages
          reqTwoSources.max_results
          (pipelineResponse ["duckduckgo", "bing"] fetchPartial reqTwoSources
            0) 0) := rfl
  have hall := search_status_classification ["duckduckgo", "bing"]
    fetchPartial reqTwoSources (CacheService.init 1800) 0 0 _ _ h rfl
  exact ⟨by decide, by decide, hall.2.1 (by decide) (by decide)⟩

/-- The integer formula (T + S - 1) / S computes the ceiling of T / S. -/
theorem ceilDiv_eq_natCeil (T S : Nat) (hS : 1 ≤ S) :
    (T + S - 1) / S = Nat.ceil ((T : ℚ) / (S : ℚ)) := by
  have hS0 : 0 < S := hS
  have hSQ : (0 : ℚ) < (S : ℚ) := by exact_mod_cast hS0
  have key1 : T ≤ (T + S - 1) / S * S := by
    have hd := Nat.div_add_mod (T + S - 1) S
    have hm : (T + S - 1) % S < S := Nat.mod_lt _ hS0
    rw [Nat.mul_comm] at hd
    generalize hp : (T + S - 1) / S * S = p at *
    generalize hr : (T + S - 1) % S = r at *
    omega
  have key2 : ∀ k : Nat, T ≤ k * S → (T + S - 1) / S ≤ k := by
    intro k hk
    have hlt : T + S - 1 < (k + 1) * S := by
      have he : (k + 1) * S = k * S + S := by ring
      rw [he]
      generalize hp : k * S = p at *
      omega
    exact Nat.lt_succ_iff.mp ((Nat.div_lt_iff_lt_mul hS0).mpr hlt)
  apply le_antisymm
  · refine key2 _ ?_
    have hle := Nat.le_ceil ((T : ℚ) / (S : ℚ))
    have hq : (T : ℚ) ≤ (Nat.ceil ((T : ℚ) / (S : ℚ)) : ℚ) * S := by
      calc (T : ℚ) = (T : ℚ) / S * S := (div_mul_cancel₀ _ hSQ.ne').symm
        _ ≤ _ := mul_le_mul_of_nonneg_right hle hSQ.le
    exact_mod_cast hq
  · rw [Nat.ceil_le, div_le_iff₀ hSQ]
    exact_mod_cast key1

/-- C5: on the pipeline path the results page is the slice of the ranked
sequence from (page - 1) times page_size (inclusive) to page times
page_size (exclusive), and total_pages is the ceiling of total_results
over page_size. -/
theorem search_pagination (supported : List String)
    (fetch : String → Except String (List ResultItem)) (req : SearchRequest)
    (c : CacheService SearchResponse) (now : Int) (d : ℚ)
    (resp : SearchResponse) (c2 : CacheService SearchResponse)
    (h : search supported fetch req c now d = Except.ok (resp, c2))
    (hf : resp.from_cache = false) (hpage : 1 ≤ req.page)
    (hsize : 1 ≤ req.page_size) :
    resp.results = ((rank_results (deduplicate_results (fanoutResults fetch
        (resolveHandlers supported req.sources))) req.query).drop
      ((req.page - 1) * req.page_size)).take req.page_size ∧
    (req.page - 1) * req.page_size + req.page_size =
      req.page * req.page_size ∧
    resp.total_results = (rank_results (deduplicate_results (fanoutResults
      fetch (resolveHandlers supported req.sources))) req.query).length ∧
    resp.total_pages =
      Nat.ceil ((resp.total_results : ℚ) / (req.page_size : ℚ)) := by
  obtain ⟨hresp, -, -, -, -⟩ := search_ok_miss h hf
  subst hresp
  refine ⟨pipelineResponse_results supported fetch req d, ?_,
    pipelineResponse_total_results supported fetch req d, ?_⟩
  · obtain ⟨q, hq⟩ : ∃ q, req.page = q + 1 := ⟨req.page - 1, by omega⟩
    rw [hq]
    simp [Nat.add_sub_cancel]
    ring
  · rw [pipelineResponse_total_pages, pipelineResponse_total_results,
      ceilDiv_eq_natCeil _ _ hsize]

/-- Witness for search_pagination at the fan-out of fetchPartial with a
fresh cache, page 1 and page size 10. -/
theorem search_pagination_witness :
    (1 ≤ reqTwoSources.page ∧ 1 ≤ reqTwoSources.page_size) ∧
    (pipelineResponse ["duckduckgo", "bing"] fetchPartial reqTwoSources
        1).results =
      ((rank_results (deduplicate_results (fanoutResults fetchPartial
          (resolveHandlers ["duckduckgo", "bing"] reqTwoSources.sources)))
        reqTwoSources.query).drop
          ((reqTwoSources.page - 1) * reqTwoSources.page_size)).take
        reqTwoSources.page_size ∧
    (pipelineResponse ["duckduckgo", "bing"] fetchPartial reqTwoSources
        1).total_pages =
      Nat.ceil (((pipelineResponse ["duckduckgo", "bing"] fetchPartial
        reqTwoSources 1).total_results : ℚ) /
        (reqTwoSources.page_size : ℚ)) := by
  have h : search ["duckduckgo", "bing"] fetchPartial reqTwoSources
      (CacheService.init 1800) 0 1 =
      Except.ok (pipelineResponse ["duckduckgo", "bing"] fetchPartial
        reqTwoSources 1,
        CacheService.set
          (CacheService.get (CacheService.init 1800) reqTwoSources.query
            reqTwoSources.sources reqTwoSources.languages
            reqTwoSources.max_results 0).2
          reqTwoSources.query reqTwoSources.sources reqTwoSources.languages
          reqTwoSources.max_results
          (pipelineResponse ["duckduckgo", "bing"] fetchPartial reqTwoSources
            1) 0) := rfl
  have hall := search_pagination ["duckduckgo", "bing"] fetchPartial
    reqTwoSources (CacheService.init 1800) 0 1 _ _ h rfl (by decide)
    (by decide)
  exact ⟨⟨by decide, by decide⟩, hall.1, hall.2.2.2⟩

/-! ## Cache round trip of the search endpoint -/

theorem CacheService.get_state {α : Type} (s : CacheService α)
    (query : String) (sources languages : List String) (max_results : Nat)
    (now : Int) :
    ((CacheService.get s query sources languages max_results now).2).ttl_seconds
      = s.ttl_seconds ∧
    (((CacheService.get s query sources languages max_results now).2).cache =
        s.cache ∨
      ((CacheService.get s query sources languages max_results now).2).cache =
        dictDel s.cache (generate_key query sources languages max_results)) ∧
    ((((CacheService.get s query sources languages max_results now).2).hits =
        s.hits + 1 ∧
      ((CacheService.get s query sources languages max_results now).2).misses
        = s.misses) ∨
     (((CacheService.get s query sources languages max_results now).2).hits =
        s.hits ∧
      ((CacheService.get s query sources languages max_results now).2).misses
        = s.misses + 1)) := by
  unfold CacheService.get
  dsimp only
  cases hd : dictGet s.cache (generate_key query sources languages
      max_results) with
  | none =>
    exact ⟨rfl, Or.inl rfl, Or.inr ⟨rfl, rfl⟩⟩
  | some p =>
    obtain ⟨v, ts⟩ := p
    dsimp only
    by_cases ht : now - ts < s.ttl_seconds
    · rw [if_pos ht]
      exact ⟨rfl, Or.inl rfl, Or.inl ⟨rfl, rfl⟩⟩
    · rw [if_neg ht]
      exact ⟨rfl, Or.inr rfl, Or.inr ⟨rfl, rfl⟩⟩

theorem dictGet_annotateStored {α : Type} (m : List (String × α × Int))
    (k : String) (v2 v : α) (ts : Int) (h : dictGet m k = some (v, ts)) :
    dictGet (annotateStored m k v2) k = some (v2, ts) := by
  induction m with
  | nil => simp [dictGet] at h
  | cons p rest ih =>
    obtain ⟨k', q⟩ := p
    simp only [annotateStored, List.map_cons]
    by_cases hk : k' = k
    · subst hk
      have hq : q = (v, ts) := by simpa [dictGet] using h
      subst hq
      rw [if_pos rfl]
      simp [dictGet]
    · rw [if_neg hk]
      simp only [dictGet, if_neg hk]
      simp only [dictGet, if_neg hk] at h
      exact ih h

/-- C7 (amended): two back-to-back identical requests with the second
inside the TTL give from_cache false then true, and the second body is
the first body with the two cache-hit flags set (from_cache true, and the
cache_hit key added as true); but the cache stores the response dict by
reference, so serving the hit writes those flags through to the stored
entry: after the second call the cached entry holds the flagged response,
not the originally constructed one. -/
theorem search_cache_roundtrip (supported : List String)
    (fetch : String → Except String (List ResultItem)) (req : SearchRequest)
    (c : CacheService SearchResponse) (now1 now2 : Int) (d1 d2 : ℚ)
    (resp1 : SearchResponse) (c1 : CacheService SearchResponse)
    (resp2 : SearchResponse) (c2 : CacheService SearchResponse)
    (h1 : search supported fetch req c now1 d1 = Except.ok (resp1, c1))
    (hf1 : resp1.from_cache = false)
    (h2 : search supported fetch req c1 now2 d2 = Except.ok (resp2, c2))
    (httl : 0 < c.ttl_seconds) (hfresh : now2 < now1 + c.ttl_seconds) :
    resp1.from_cache = false ∧
    resp2.from_cache = true ∧
    resp2 = { resp1 with from_cache := true, cache_hit := some true } ∧
    dictGet c1.cache
      (generate_key req.query req.sources req.languages req.max_results) =
      some (resp1, now1) ∧
    dictGet c2.cache
      (generate_key req.query req.sources req.languages req.max_results) =
      some (resp2, now1) := by
  obtain ⟨hresp1, hc1, hmiss, hsrc, hh⟩ := search_ok_miss h1 hf1
  have hcm := CacheService.get_state c req.query req.sources req.languages
    req.max_results now1
  have hset := CacheService.set_entry
    (CacheService.get c req.query req.sources req.languages req.max_results
      now1).2
    req.query req.sources req.languages req.max_results
    (pipelineResponse supported fetch req d1) now1
    (by rw [hcm.1]; exact httl)
  have hent : dictGet c1.cache
      (generate_key req.query req.sources req.languages req.max_results) =
      some (resp1, now1) := by
    rw [hc1, hresp1]
    exact hset.1
  have hc1ttl : c1.ttl_seconds = c.ttl_seconds := by
    rw [hc1, hset.2.1, hcm.1]
  have hget2 : CacheService.get c1 req.query req.sources req.languages
      req.max_results now2 =
      (some resp1, { c1 with hits := c1.hits + 1 }) := by
    unfold CacheService.get
    dsimp only
    rw [hent]
    dsimp only
    rw [if_pos (by rw [hc1ttl]; omega)]
  rw [search_hit_eq supported fetch req c1 now2 d2 resp1
    { c1 with hits := c1.hits + 1 } hsrc hget2] at h2
  have hp := Prod.mk.inj (Except.ok.inj h2)
  refine ⟨hf1, ?_, hp.1.symm, hent, ?_⟩
  · rw [← hp.1]
  · rw [← hp.2, hp.1]
    exact dictGet_annotateStored c1.cache
      (generate_key req.query req.sources req.languages req.max_results)
      resp2 resp1 now1 hent

/-- Fan-out oracle for the cache round trip demonstrations: a single
source returning a single result. -/
def fetchSingle : String → Except String (List ResultItem) := fun _ =>
  Except.ok [⟨some "t", some "https://example.com", some "s",
    some "duckduckgo"⟩]

/-- Request for the cache round trip demonstrations. -/
def reqSingle : SearchRequest :=
  { query := "q", mode := "aggregation", languages := ["en"],
    sources := ["duckduckgo"], max_results := 5, page := 1, page_size := 10 }

/-- Cache state after a first search on a fresh cache. -/
def stateAfterFirst : CacheService SearchResponse :=
  ((search ["duckduckgo"] fetchSingle reqSingle (CacheService.init 1800) 0
    (7/2)).toOption.map Prod.snd).getD (CacheService.init 1800)

/-- Cache state after an identical second search served from the cache. -/
def stateAfterSecond : CacheService SearchResponse :=
  ((search ["duckduckgo"] fetchSingle reqSingle stateAfterFirst 10
    (5/2)).toOption.map Prod.snd).getD (CacheService.init 1800)

/-- The cache key of the demonstration request. -/
def keySingle : String := generate_key "q" ["duckduckgo"] ["en"] 5

/-- Counterexample to C7 as stated: the response is not cached by value
and is not immutable after construction; serving the hit writes the
cache-hit annotation through the alias into the stored entry, so the
entry stored after the second call differs from the entry stored by the
first call (its from_cache flag has flipped to true). -/
theorem search_hit_mutates_cached_entry_counterexample :
    ((dictGet stateAfterFirst.cache keySingle).map fun p =>
      p.1.from_cache) = some false ∧
    ((dictGet stateAfterSecond.cache keySingle).map fun p =>
      p.1.from_cache) = some true ∧
    dictGet stateAfterSecond.cache keySingle ≠
      dictGet stateAfterFirst.cache keySingle := by
  refine ⟨by decide, by decide, fun hc => ?_⟩
  have h1 : ((dictGet stateAfterFirst.cache keySingle).map fun p =>
      p.1.from_cache) = some false := by decide
  have h2 : ((dictGet stateAfterSecond.cache keySingle).map fun p =>
      p.1.from_cache) = some true := by decide
  rw [hc] at h2
  rw [h1] at h2
  simp at h2

/-- Witness for search_cache_roundtrip on the concrete demonstration run:
miss then hit inside the TTL. -/
theorem search_cache_roundtrip_witness :
    (pipelineResponse ["duckduckgo"] fetchSingle reqSingle (7/2)).from_cache
      = false ∧
    (0 : Int) < (CacheService.init (α := SearchResponse) 1800).ttl_seconds ∧
    (10 : Int) < 0 + (CacheService.init (α := SearchResponse)
      1800).ttl_seconds ∧
    ({ pipelineResponse ["duckduckgo"] fetchSingle reqSingle (7/2) with
        from_cache := true, cache_hit := some true } : SearchResponse) =
      { pipelineResponse ["duckduckgo"] fetchSingle reqSingle (7/2) with
        from_cache := true, cache_hit := some true } ∧
    dictGet
      (CacheService.set
        (CacheService.get (CacheService.init 1800) reqSingle.query
          reqSingle.sources reqSingle.languages reqSingle.max_results 0).2
        reqSingle.query reqSingle.sources reqSingle.languages
        reqSingle.max_results
        (pipelineResponse ["duckduckgo"] fetchSingle reqSingle (7/2))
        0).cache
      (generate_key reqSingle.query reqSingle.sources reqSingle.languages
        reqSingle.max_results) =
      some (pipelineResponse ["duckduckgo"] fetchSingle reqSingle (7/2),
        0) := by
  have h1 : search ["duckduckgo"] fetchSingle reqSingle
      (CacheService.init 1800) 0 (7/2) =
      Except.ok (pipelineResponse ["duckduckgo"] fetchSingle reqSingle (7/2),
        CacheService.set
          (CacheService.get (CacheService.init 1800) reqSingle.query
            reqSingle.sources reqSingle.languages reqSingle.max_results 0).2
          reqSingle.query reqSingle.sources reqSingle.languages
          reqSingle.max_results
          (pipelineResponse ["duckduckgo"] fetchSingle reqSingle (7/2))
          0) := rfl
  have hall := search_cache_roundtrip ["duckduckgo"] fetchSingle reqSingle
    (CacheService.init 1800) 0 10 (7/2) (5/2) _ _ _ _ h1 rfl rfl
    (by decide) (by decide)
  exact ⟨hall.1, by decide, by decide, hall.2.2.1 ▸ rfl, hall.2.2.2.1⟩

/-! ## Counter and map effects of the cache operations -/

theorem CacheService.set_counters {α : Type} (s : CacheService α)
    (query : String) (sources languages : List String) (max_results : Nat)
    (v : α) (now : Int) :
    (CacheService.set s query sources languages max_results v now).hits =
      s.hits ∧
    (CacheService.set s query sources languages max_results v now).misses =
      s.misses ∧
    (CacheService.set s query sources languages max_results v
      now).ttl_seconds = s.ttl_seconds := by
  unfold CacheService.set CacheService.cleanup_old_entries
  dsimp only
  split <;> exact ⟨rfl, rfl, rfl⟩

/-- C8 (amended): every get mutates the counters, incrementing exactly one
of hits and misses and leaving the other untouched, and touches the map
only to evict the queried expired entry; set always writes its entry into
the map but never changes the counters; and within the modelled system
the search endpoint changes the counters exactly through its single get:
every successful search increments exactly one of the two counters and
leaves the other untouched. -/
theorem cache_counter_frame {α : Type} (s : CacheService α) (query : String)
    (sources languages : List String) (max_results : Nat) (v : α)
    (now : Int) :
    ((((CacheService.get s query sources languages max_results now).2).hits =
        s.hits + 1 ∧
      ((CacheService.get s query sources languages max_results now).2).misses
        = s.misses) ∨
     (((CacheService.get s query sources languages max_results now).2).hits =
        s.hits ∧
      ((CacheService.get s query sources languages max_results now).2).misses
        = s.misses + 1)) ∧
    (((CacheService.get s query sources languages max_results now).2).cache =
        s.cache ∨
      ((CacheService.get s query sources languages max_results now).2).cache =
        dictDel s.cache (generate_key query sources languages max_results)) ∧
    (CacheService.set s query sources languages max_results v now).hits =
      s.hits ∧
    (CacheService.set s query sources languages max_results v now).misses =
      s.misses ∧
    (0 < s.ttl_seconds →
      dictGet (CacheService.set s query sources languages max_results v
          now).cache (generate_key query sources languages max_results) =
        some (v, now)) ∧
    (∀ (supported : List String)
      (fetch : String → Except String (List ResultItem))
      (req : SearchRequest) (c : CacheService SearchResponse) (now2 : Int)
      (d : ℚ) (resp : SearchResponse) (c2 : CacheService SearchResponse),
      search supported fetch req c now2 d = Except.ok (resp, c2) →
      ((c2.hits = c.hits + 1 ∧ c2.misses = c.misses) ∨
       (c2.hits = c.hits ∧ c2.misses = c.misses + 1))) := by
  obtain ⟨-, hcacheg, hcnt⟩ :=
    CacheService.get_state s query sources languages max_results now
  obtain ⟨hsh, hsm, -⟩ :=
    CacheService.set_counters s query sources languages max_results v now
  refine ⟨hcnt, hcacheg, hsh, hsm, ?_, ?_⟩
  · intro httl
    exact (CacheService.set_entry s query sources languages max_results v now
      httl).1
  · intro supported fetch req c now2 d resp c2 h
    by_cases hs : req.sources.isEmpty
    · rw [search, if_pos hs] at h
      exact absurd h (by simp)
    · rcases hget : CacheService.get c req.query req.sources req.languages
          req.max_results now2 with ⟨o, c1⟩
      have hcnt2 : (c1.hits = c.hits + 1 ∧ c1.misses = c.misses) ∨
          (c1.hits = c.hits ∧ c1.misses = c.misses + 1) := by
        have hg := (CacheService.get_state c req.query req.sources
          req.languages req.max_results now2).2.2
        rw [hget] at hg
        exact hg
      cases o with
      | some cr =>
        rw [search_hit_eq supported fetch req c now2 d cr c1
          (Bool.not_eq_true _ ▸ hs) hget] at h
        have hp := Prod.mk.inj (Except.ok.inj h)
        rw [← hp.2]
        exact hcnt2
      | none =>
        by_cases hh : (resolveHandlers supported req.sources).isEmpty
        · rw [search, if_neg hs, hget] at h
          dsimp only at h
          rw [if_pos hh] at h
          exact absurd h (by simp)
        · rw [search_miss_eq supported fetch req c now2 d c1
            (Bool.not_eq_true _ ▸ hs) hget (Bool.not_eq_true _ ▸ hh)] at h
          have hp := Prod.mk.inj (Except.ok.inj h)
          rw [← hp.2]
          obtain ⟨h1, h2, -⟩ := CacheService.set_counters c1 req.query
            req.sources req.languages req.max_results
            (pipelineResponse supported fetch req d) now2
          rw [h1, h2]
          exact hcnt2

/-- Counterexample to C8 as stated: a set call leaves both counters
unchanged, and a get call that hits leaves the map unchanged, so neither
operation mutates both the counters and the map on every call. -/
theorem cache_counters_counterexample :
    (CacheService.set (CacheService.init (α := Nat) 1800) "q" ["a"] ["en"] 5
      42 0).hits = (CacheService.init (α := Nat) 1800).hits ∧
    (CacheService.set (CacheService.init (α := Nat) 1800) "q" ["a"] ["en"] 5
      42 0).misses = (CacheService.init (α := Nat) 1800).misses ∧
    ((CacheService.get (CacheService.set (CacheService.init (α := Nat) 1800)
      "q" ["a"] ["en"] 5 42 0) "q" ["a"] ["en"] 5 1).2).cache =
      (CacheService.set (CacheService.init (α := Nat) 1800) "q" ["a"] ["en"]
        5 42 0).cache := by
  decide

/-- Witness for cache_counter_frame: the positive-TTL conjunct and the
search frame conjunct at concrete inputs. -/
theorem cache_counter_frame_witness :
    (0 : Int) < (CacheService.init (α := Nat) 1800).ttl_seconds ∧
    dictGet (CacheService.set (CacheService.init (α := Nat) 1800) "q" ["a"]
        ["en"] 5 42 0).cache (generate_key "q" ["a"] ["en"] 5) =
      some (42, 0) ∧
    (((CacheService.set
        (CacheService.get (CacheService.init 1800) reqSingle.query
          reqSingle.sources reqSingle.languages reqSingle.max_results 0).2
        reqSingle.query reqSingle.sources reqSingle.languages
        reqSingle.max_results
        (pipelineResponse ["duckduckgo"] fetchSingle reqSingle 2) 0).hits =
        (CacheService.init (α := SearchResponse) 1800).hits + 1 ∧
      (CacheService.set
        (CacheService.get (CacheService.init 1800) reqSingle.query
          reqSingle.sources reqSingle.languages reqSingle.max_results 0).2
        reqSingle.query reqSingle.sources reqSingle.languages
        reqSingle.max_results
        (pipelineResponse ["duckduckgo"] fetchSingle reqSingle 2) 0).misses =
        (CacheService.init (α := SearchResponse) 1800).misses) ∨
     ((CacheService.set
        (CacheService.get (CacheService.init 1800) reqSingle.query
          reqSingle.sources reqSingle.languages reqSingle.max_results 0).2
        reqSingle.query reqSingle.sources reqSingle.languages
        reqSingle.max_results
        (pipelineResponse ["duckduckgo"] fetchSingle reqSingle 2) 0).hits =
        (CacheService.init (α := SearchResponse) 1800).hits ∧
      (CacheService.set
        (CacheService.get (CacheService.init 1800) reqSingle.query
          reqSingle.sources reqSingle.languages reqSingle.max_results 0).2
        reqSingle.query reqSingle.sources reqSingle.languages
        reqSingle.max_results
        (pipelineResponse ["duckduckgo"] fetchSingle reqSingle 2) 0).misses =
        (CacheService.init (α := SearchResponse) 1800).misses + 1)) := by
  have hframe := cache_counter_frame (CacheService.init (α := Nat) 1800) "q"
    ["a"] ["en"] 5 42 0
  refine ⟨by decide, hframe.2.2.2.2.1 (by decide), ?_⟩
  exact hframe.2.2.2.2.2 ["duckduckgo"] fetchSingle reqSingle
    (CacheService.init 1800) 0 2 _ _ rfl

/-! ## Source resolution and request validation -/

theorem firstDedupStr_mem :
    ∀ (l seen : List String) (x : String), x ∈ firstDedupStr l seen →
      x ∈ l := by
  intro l
  induction l with
  | nil => intro seen x hx; simp [firstDedupStr] at hx
  | cons s rest ih =>
    intro seen x hx
    simp only [firstDedupStr] at hx
    by_cases hm : s ∈ seen
    · rw [if_pos hm] at hx
      exact List.mem_cons_of_mem _ (ih seen x hx)
    · rw [if_neg hm] at hx
      rcases List.mem_cons.mp hx with hx | hx
      · rw [hx]; exact List.mem_cons_self _ _
      · exact List.mem_cons_of_mem _ (ih _ x hx)

theorem resolveHandlers_mem (supported sources : List String) (x : String)
    (hx : x ∈ resolveHandlers supported sources) :
    x ∈ sources ∧ supported.contains x = true := by
  have h1 := firstDedupStr_mem _ [] x hx
  have h2 := List.mem_filter.mp h1
  exact ⟨h2.1, h2.2⟩

theorem fanoutErrors_mem
    (fetch : String → Except String (List ResultItem)) :
    ∀ (handlers : List String) (p : String × String),
      p ∈ fanoutErrors fetch handlers → p.1 ∈ handlers := by
  intro handlers
  induction handlers with
  | nil => intro p hp; simp [fanoutErrors] at hp
  | cons s rest ih =>
    intro p hp
    simp only [fanoutErrors] at hp
    cases hf : fetch s with
    | ok rs =>
      rw [hf] at hp
      exact List.mem_cons_of_mem _ (ih p hp)
    | error e =>
      rw [hf] at hp
      rcases List.mem_cons.mp hp with hp | hp
      · rw [hp]; exact List.mem_cons_self _ _
      · exact List.mem_cons_of_mem _ (ih p hp)

/-- C9 (amended): requested sources with no registered adapter are
silently dropped: the work set contains only requested sources with an
adapter and every key of the per-source error map is a requested source
with an adapter, so dropped sources never appear there; an empty sources
list is rejected with a client error before anything runs, and a request
none of whose sources resolves is rejected with a client error before any
fetch (the outcome does not depend on the fetch oracle) provided its
cache lookup misses; the code consults the cache before validating, so a
colliding cached key can answer such a request instead (see the
counterexample). -/
theorem search_source_validation (supported : List String)
    (fetch : String → Except String (List ResultItem)) (req : SearchRequest)
    (c : CacheService SearchResponse) (now : Int) (d : ℚ) :
    (∀ p ∈ fanoutErrors fetch (resolveHandlers supported req.sources),
      p.1 ∈ req.sources ∧ supported.contains p.1 = true) ∧
    (∀ x ∈ resolveHandlers supported req.sources,
      x ∈ req.sources ∧ supported.contains x = true) ∧
    (req.sources = [] → search supported fetch req c now d =
      Except.error 400) ∧
    (req.sources ≠ [] → resolveHandlers supported req.sources = [] →
      (CacheService.get c req.query req.sources req.languages
        req.max_results now).1 = none →
      search supported fetch req c now d = Except.error 400) := by
  refine ⟨?_, ?_, ?_, ?_⟩
  · intro p hp
    exact resolveHandlers_mem supported req.sources p.1
      (fanoutErrors_mem fetch _ p hp)
  · intro x hx
    exact resolveHandlers_mem supported req.sources x hx
  · intro hempty
    rw [search, if_pos (by simp [hempty])]
  · intro hne hres hmiss
    rcases hget : CacheService.get c req.query req.sources req.languages
        req.max_results now with ⟨o, c1⟩
    have ho : o = none := by
      rw [hget] at hmiss
      exact hmiss
    subst ho
    rw [search, if_neg (by simp [hne]), hget]
    dsimp only
    rw [if_pos (by simp [hres])]

/-- Witness for search_source_validation: a request whose single source
has no adapter is rejected with a 400 on a fresh cache. -/
theorem search_source_validation_witness :
    (["unknown"] : List String) ≠ [] ∧
    resolveHandlers ["duckduckgo"] ["unknown"] = [] ∧
    (CacheService.get (CacheService.init (α := SearchResponse) 1800) "q"
      ["unknown"] ["en"] 5 0).1 = none ∧
    search ["duckduckgo"] fetchSingle
      { query := "q", mode := "aggregation", languages := ["en"],
        sources := ["unknown"], max_results := 5, page := 1,
        page_size := 10 } (CacheService.init 1800) 0 1 =
      Except.error 400 := by
  refine ⟨by decide, by decide, by decide, ?_⟩
  exact (search_source_validation ["duckduckgo"] fetchSingle
    { query := "q", mode := "aggregation", languages := ["en"],
      sources := ["unknown"], max_results := 5, page := 1, page_size := 10 }
    (CacheService.init 1800) 0 1).2.2.2 (by decide) (by decide) (by decide)

/-- Fan-out oracle for the collision counterexample: every source returns
no results. -/
def fetchNone : String → Except String (List ResultItem) := fun _ =>
  Except.ok []

/-- First request of the collision counterexample: a supported source and
a query that smuggles the separator into the key payload. -/
def reqColliderA : SearchRequest :=
  { query := "q:duckduckgo", mode := "aggregation", languages := ["en"],
    sources := ["duckduckgo"], max_results := 5, page := 1, page_size := 10 }

/-- Second request of the collision counterexample: its only source has
no adapter, yet its key payload equals the one of reqColliderA. -/
def reqColliderB : SearchRequest :=
  { query := "q", mode := "aggregation", languages := ["en"],
    sources := ["duckduckgo:duckduckgo"], max_results := 5,
    page_size := 10, page := 1 }

/-- Cache state after serving reqColliderA on a fresh cache. -/
def stateCollider : CacheService SearchResponse :=
  ((search ["duckduckgo"] fetchNone reqColliderA (CacheService.init 1800) 0
    1).toOption.map Prod.snd).getD (CacheService.init 1800)

/-- Counterexample to C9 as stated: reqColliderB resolves to no adapter
and is non-empty, so the claim requires a client-error rejection; but the
code consults the cache before validating and the colon-joined key
payloads of the two requests coincide, so the request is answered from
the cache instead of being rejected. -/
theorem search_unresolvable_not_rejected_counterexample :
    reqColliderB.sources ≠ [] ∧
    resolveHandlers ["duckduckgo"] reqColliderB.sources = [] ∧
    generate_key reqColliderA.query reqColliderA.sources
      reqColliderA.languages reqColliderA.max_results =
      generate_key reqColliderB.query reqColliderB.sources
        reqColliderB.languages reqColliderB.max_results ∧
    (search ["duckduckgo"] fetchNone reqColliderB stateCollider 10 1).isOk
      = true ∧
    ((search ["duckduckgo"] fetchNone reqColliderB stateCollider 10
      1).toOption.map fun p => p.1.from_cache) = some true := by
  exact ⟨by decide, by decide, by decide, by decide, by decide⟩
